import Mathlib

/-!
# PhotoWatermark `week1.py` — verification of the specification claims

Shallow embedding of the program in `src/week1.py`: a batch photo
watermarker that reads each image's EXIF `DateTimeOriginal` timestamp,
renders it as a text watermark at a chosen anchor position, and saves the
result to a derived output directory.

Python semantics are modelled as follows: Python `int` is Lean `Int`
(with `Nat` where values are known non-negative), Python floor division
`//` is `Int.fdiv`, Python strings are Lean `String`, exceptions are
`Option`/`Except`, and the observable side effects of the batch loop
(files saved, log lines printed, directories created) are accumulated in
an explicit `Summary` record.
-/

namespace PhotoWatermark

/-! ## Watermark anchor placement (`add_watermark`, lines 58–73)

The coordinate computation from `position`, the image dimensions and the
measured text bounding box.  `padding = 20` is the fixed margin; Python's
`//` floor division becomes `Int.fdiv`. -/

/-- The fixed margin (`padding = 20` in `add_watermark`). -/
def padding : Int := 20

/-- Anchor coordinates computed by `add_watermark` (lines 62–73):
`"左上角"` = top-left, `"居中"` = center, `"右下角"` = bottom-right, any
other string falls into the `else` branch, which repeats the bottom-right
formula. -/
def computeAnchor (position : String) (imgWidth imgHeight textWidth textHeight : Int) :
    Int × Int :=
  if position = "左上角" then
    (padding, padding)
  else if position = "居中" then
    (Int.fdiv (imgWidth - textWidth) 2, Int.fdiv (imgHeight - textHeight) 2)
  else if position = "右下角" then
    (imgWidth - textWidth - padding, imgHeight - textHeight - padding)
  else
    (imgWidth - textWidth - padding, imgHeight - textHeight - padding)

/-- The text bounding box `(x, y)`–`(x + w, y + h)` lies inside the image
minus a margin of 20 on every side. -/
def inBounds (x y textWidth textHeight imgWidth imgHeight : Int) : Prop :=
  20 ≤ x ∧ x + textWidth ≤ imgWidth - 20 ∧ 20 ≤ y ∧ y + textHeight ≤ imgHeight - 20

/-! ## Color parsing (`parse_color`, lines 119–131)

`parse_color` splits on `','`, requires exactly three components, converts
each with Python `int(x.strip())`, checks each is in `[0, 255]`, and falls
back to white `(255, 255, 255)` on any failure. -/

/-- The numeric value of an ASCII digit, or `none`. -/
def digitVal (c : Char) : Option Nat :=
  if c.isDigit then some (c.toNat - 48) else none

/-- Python `str.split(',')` on the character list of a string: splitting on
every comma, keeping empty pieces (`"".split(',') = ['']`). -/
def splitComma : List Char → List (List Char)
  | [] => [[]]
  | ',' :: cs => [] :: splitComma cs
  | c :: cs =>
    match splitComma cs with
    | head :: tail => (c :: head) :: tail
    | [] => [[c]]

/-- ASCII whitespace stripped by Python `str.strip()`. -/
def isPySpace (c : Char) : Bool :=
  c = ' ' || c = '\t' || c = '\n' || c = '\x0d' || c = '\x0b' || c = '\x0c'

/-- Python `str.strip()`: drop whitespace from both ends. -/
def stripChars (cs : List Char) : List Char :=
  ((cs.dropWhile isPySpace).reverse.dropWhile isPySpace).reverse

/-- Digits of a Python integer literal after the first digit: ASCII digits
with single underscores allowed between digits (as accepted by `int`). -/
def pyIntRest (acc : Nat) : List Char → Option Nat
  | [] => some acc
  | '_' :: c :: cs =>
    match digitVal c with
    | some d => pyIntRest (acc * 10 + d) cs
    | none => none
  | ['_'] => none
  | c :: cs =>
    match digitVal c with
    | some d => pyIntRest (acc * 10 + d) cs
    | none => none

/-- The unsigned part of Python `int(...)`: a nonempty digit string,
underscores only between digits. -/
def pyIntAbs (cs : List Char) : Option Nat :=
  match cs with
  | c :: rest =>
    match digitVal c with
    | some d => pyIntRest d rest
    | none => none
  | [] => none

/-- Python `int(s)` for a character list: optional sign followed by digits;
returns `none` where Python raises `ValueError`. -/
def pyInt (cs : List Char) : Option Int :=
  match cs with
  | '+' :: rest => (pyIntAbs rest).map (fun n => (n : Int))
  | '-' :: rest => (pyIntAbs rest).map (fun n => -(n : Int))
  | other => (pyIntAbs other).map (fun n => (n : Int))

/-- Model of `parse_color` (lines 119–131): split on `','`, require exactly 3
components, convert each with `int(x.strip())`, require each in `[0,255]`;
any failure is caught and falls back to `(255, 255, 255)`. -/
def parse_color (color_str : String) : Int × Int × Int :=
  let parts := splitComma color_str.toList
  if parts.length ≠ 3 then (255, 255, 255)
  else
    match parts with
    | [a, b, c] =>
      match pyInt (stripChars a), pyInt (stripChars b), pyInt (stripChars c) with
      | some r, some g, some bl =>
        if 0 ≤ r ∧ r ≤ 255 ∧ 0 ≤ g ∧ g ≤ 255 ∧ 0 ≤ bl ∧ bl ≤ 255 then (r, g, bl)
        else (255, 255, 255)
      | _, _, _ => (255, 255, 255)
    | _ => (255, 255, 255)

/-! ## EXIF capture-date extraction (`get_exif_datetime`, lines 7–18)

`get_exif_datetime` loads the EXIF dictionary, reads `DateTimeOriginal`,
parses it with `datetime.strptime(date_str, "%Y:%m:%d %H:%M:%S")` and
re-formats it as `dt.strftime("%Y年%m月%d日")`; any exception (I/O, missing
field handled by the `in` check, parse failure, invalid calendar date) makes
it return `None`.

`strptime` matches each directive with a regex — `%Y` is `\d\d\d\d`, `%m`
is `1[0-2]|0[1-9]|[1-9]`, `%d` is `3[01]|[12]\d|0[1-9]|[1-9]`, `%H` is
`2[0-3]|[0-1]\d|\d`, `%M` is `[0-5]\d|\d`, `%S` is `6[0-1]|[0-5]\d|\d` —
requires the whole string to match, and then the `datetime` constructor
validates the calendar date (day within the month, seconds ≤ 59).  The
parsers below implement those regexes with left-to-right alternative
priority. -/

/-- The ASCII digit character for `n < 10`. -/
def digitChar (n : Nat) : Char := Char.ofNat (48 + n)

/-- Directive `%Y`: exactly four digits. -/
def parseYear4 : List Char → Option (Nat × List Char)
  | a :: b :: c :: d :: rest =>
    match digitVal a, digitVal b, digitVal c, digitVal d with
    | some w, some x, some y, some z => some (w * 1000 + x * 100 + y * 10 + z, rest)
    | _, _, _, _ => none
  | _ => none

/-- Directive `%m`: regex `1[0-2]|0[1-9]|[1-9]`, alternatives tried left to right. -/
def parseMonth2 : List Char → Option (Nat × List Char)
  | c1 :: c2 :: rest =>
    match digitVal c1, digitVal c2 with
    | some v1, some v2 =>
      if v1 = 1 ∧ v2 ≤ 2 then some (10 + v2, rest)
      else if v1 = 0 ∧ 1 ≤ v2 then some (v2, rest)
      else if 1 ≤ v1 then some (v1, c2 :: rest)
      else none
    | some v1, none => if 1 ≤ v1 then some (v1, c2 :: rest) else none
    | none, _ => none
  | [c1] =>
    match digitVal c1 with
    | some v1 => if 1 ≤ v1 then some (v1, []) else none
    | none => none
  | [] => none

/-- Directive `%d`: regex `3[01]|[12]\d|0[1-9]|[1-9]`. -/
def parseDay2 : List Char → Option (Nat × List Char)
  | c1 :: c2 :: rest =>
    match digitVal c1, digitVal c2 with
    | some v1, some v2 =>
      if v1 = 3 ∧ v2 ≤ 1 then some (30 + v2, rest)
      else if v1 = 1 ∨ v1 = 2 then some (10 * v1 + v2, rest)
      else if v1 = 0 ∧ 1 ≤ v2 then some (v2, rest)
      else if 1 ≤ v1 then some (v1, c2 :: rest)
      else none
    | some v1, none => if 1 ≤ v1 then some (v1, c2 :: rest) else none
    | none, _ => none
  | [c1] =>
    match digitVal c1 with
    | some v1 => if 1 ≤ v1 then some (v1, []) else none
    | none => none
  | [] => none

/-- Directive `%H`: regex `2[0-3]|[0-1]\d|\d`. -/
def parseHour2 : List Char → Option (Nat × List Char)
  | c1 :: c2 :: rest =>
    match digitVal c1, digitVal c2 with
    | some v1, some v2 =>
      if v1 = 2 ∧ v2 ≤ 3 then some (20 + v2, rest)
      else if v1 ≤ 1 then some (10 * v1 + v2, rest)
      else some (v1, c2 :: rest)
    | some v1, none => some (v1, c2 :: rest)
    | none, _ => none
  | [c1] => (digitVal c1).map (fun v => (v, []))
  | [] => none

/-- Directive `%M`: regex `[0-5]\d|\d`. -/
def parseMin2 : List Char → Option (Nat × List Char)
  | c1 :: c2 :: rest =>
    match digitVal c1, digitVal c2 with
    | some v1, some v2 =>
      if v1 ≤ 5 then some (10 * v1 + v2, rest)
      else some (v1, c2 :: rest)
    | some v1, none => some (v1, c2 :: rest)
    | none, _ => none
  | [c1] => (digitVal c1).map (fun v => (v, []))
  | [] => none

/-- Directive `%S`: regex `6[0-1]|[0-5]\d|\d`. -/
def parseSec2 : List Char → Option (Nat × List Char)
  | c1 :: c2 :: rest =>
    match digitVal c1, digitVal c2 with
    | some v1, some v2 =>
      if v1 = 6 ∧ v2 ≤ 1 then some (60 + v2, rest)
      else if v1 ≤ 5 then some (10 * v1 + v2, rest)
      else some (v1, c2 :: rest)
    | some v1, none => some (v1, c2 :: rest)
    | none, _ => none
  | [c1] => (digitVal c1).map (fun v => (v, []))
  | [] => none

/-- A literal character of the format string. -/
def expectChar (c : Char) : List Char → Option (List Char)
  | x :: xs => if x = c then some xs else none
  | [] => none

/-- The `strptime` regex for `"%Y:%m:%d %H:%M:%S"` on a character list; the
whole input must be consumed. -/
def strptimeRun (cs : List Char) : Option (Nat × Nat × Nat × Nat × Nat × Nat) :=
  match parseYear4 cs with
  | none => none
  | some (y, r1) =>
    match expectChar ':' r1 with
    | none => none
    | some r2 =>
      match parseMonth2 r2 with
      | none => none
      | some (mo, r3) =>
        match expectChar ':' r3 with
        | none => none
        | some r4 =>
          match parseDay2 r4 with
          | none => none
          | some (d, r5) =>
            match expectChar ' ' r5 with
            | none => none
            | some r6 =>
              match parseHour2 r6 with
              | none => none
              | some (h, r7) =>
                match expectChar ':' r7 with
                | none => none
                | some r8 =>
                  match parseMin2 r8 with
                  | none => none
                  | some (mi, r9) =>
                    match expectChar ':' r9 with
                    | none => none
                    | some r10 =>
                      match parseSec2 r10 with
                      | none => none
                      | some (s, r11) =>
                        match r11 with
                        | [] => some (y, mo, d, h, mi, s)
                        | _ :: _ => none

/-- Gregorian leap year, as used by `datetime`. -/
def isLeapYear (y : Nat) : Bool :=
  y % 4 = 0 && (y % 100 ≠ 0 || y % 400 = 0)

/-- Days in a month, as enforced by the `datetime` constructor. -/
def daysInMonth (y m : Nat) : Nat :=
  if m = 2 then (if isLeapYear y then 29 else 28)
  else if m = 4 ∨ m = 6 ∨ m = 9 ∨ m = 11 then 30
  else 31

/-- The `datetime(...)` constructor's range checks (`MINYEAR = 1`,
`MAXYEAR = 9999`, day within the month, seconds at most 59). -/
def datetimeOk (y mo d h mi s : Nat) : Bool :=
  decide (1 ≤ y) && decide (y ≤ 9999) && decide (1 ≤ mo) && decide (mo ≤ 12) &&
  decide (1 ≤ d) && decide (d ≤ daysInMonth y mo) &&
  decide (h ≤ 23) && decide (mi ≤ 59) && decide (s ≤ 59)

/-- Two-digit zero-padded rendering (`%m`, `%d` in `strftime`). -/
def pad2 (n : Nat) : List Char := [digitChar (n / 10), digitChar (n % 10)]

/-- Four-digit zero-padded rendering (`%Y` in `strftime`). -/
def pad4 (n : Nat) : List Char :=
  [digitChar (n / 1000), digitChar (n / 100 % 10), digitChar (n / 10 % 10),
    digitChar (n % 10)]

/-- Formatting `dt.strftime("%Y年%m月%d日")`: the localized display string, discarding
the time of day. -/
def formatCN (y mo d : Nat) : String :=
  String.mk (pad4 y ++ "年".toList ++ pad2 mo ++ "月".toList ++ pad2 d ++ "日".toList)

/-- The pure core of `get_exif_datetime` applied to the decoded
`DateTimeOriginal` string: `datetime.strptime` (regex plus constructor
validation) followed by `strftime`; `none` models a caught exception. -/
def parseExifDate (ds : String) : Option String :=
  match strptimeRun ds.toList with
  | some (y, mo, d, h, mi, s) =>
    if datetimeOk y mo d h mi s then some (formatCN y mo d) else none
  | none => none

/-- The canonical fixed-format rendering `"YYYY:MM:DD HH:MM:SS"` of a
timestamp, as a character list. -/
def timestampChars (y mo d h mi s : Nat) : List Char :=
  pad4 y ++ ':' :: (pad2 mo ++ ':' :: (pad2 d ++ ' ' ::
    (pad2 h ++ ':' :: (pad2 mi ++ ':' :: pad2 s))))

/-- The canonical fixed-format timestamp string `"YYYY:MM:DD HH:MM:SS"`. -/
def timestampStr (y mo d h mi s : Nat) : String :=
  String.mk (timestampChars y mo d h mi s)

/-! ## The batch processor (`process_images_in_directory`, lines 85–117)

An image on disk is abstracted by whether its EXIF dictionary loads, the
raw `DateTimeOriginal` string if present, and whether `add_watermark`'s
drawing succeeds (font loading and drawing never inspect the date text).
The loop's observable effects — files saved, skip and failure log lines,
the processed counter, directory creation — are accumulated in `Summary`. -/

/-- An input image: EXIF load success, the raw `DateTimeOriginal` field,
and whether opening/drawing in `add_watermark` succeeds. -/
structure ImageFile where
  exifLoadOk : Bool
  dateTimeOriginal : Option String
  renderOk : Bool
deriving DecidableEq, Repr

/-- Model of `get_exif_datetime` (lines 7–18): `None` when `piexif.load` raises,
when the `DateTimeOriginal` tag is missing, or when parsing fails;
otherwise the formatted capture date. -/
def get_exif_datetime (img : ImageFile) : Option String :=
  if img.exifLoadOk then
    match img.dateTimeOriginal with
    | some date_str => parseExifDate date_str
    | none => none
  else none

/-- Model of `add_watermark` (lines 20–83) at the batch level: returns the stamped
image, or `None` when opening or drawing raises (independent of the text). -/
def add_watermark (img : ImageFile) (_watermark_text : String) : Option ImageFile :=
  if img.renderOk then some img else none

/-- Model of `os.path.basename` (POSIX): the part after the last `'/'`. -/
def basename (p : String) : String :=
  String.mk ((p.toList.reverse.takeWhile (fun c => c ≠ '/')).reverse)

/-- Model of `os.path.join` (POSIX) for two components. -/
def joinPath (a b : String) : String :=
  if b.toList.head? = some '/' then b
  else if a = "" ∨ a.toList.getLast? = some '/' then a ++ b
  else a ++ "/" ++ b

/-- Line 88: `os.path.join(directory_path, os.path.basename(directory_path)
+ "_watermark")`. -/
def output_dir (directory_path : String) : String :=
  joinPath directory_path (basename directory_path ++ "_watermark")

/-- Model of `os.makedirs(path, exist_ok=ok)` on a set of existing directories:
raises `FileExistsError` only when the directory exists and `exist_ok` is
false. -/
def makedirs (dirs : List String) (path : String) (exist_ok : Bool) :
    Except String (List String) :=
  if path ∈ dirs then
    (if exist_ok then .ok dirs else .error "FileExistsError")
  else .ok (dirs ++ [path])

/-- Line 92: the recognized image extensions. -/
def supported_formats : List String := [".jpg", ".jpeg", ".png", ".tiff", ".bmp"]

/-- Line 97: `filename.lower().endswith(supported_formats)` (ASCII
lowercasing; the extensions are all ASCII). -/
def isSupported (filename : String) : Bool :=
  supported_formats.any (fun ext => ext.toList.isSuffixOf (filename.toList.map Char.toLower))

/-- A filesystem side effect of the batch processor. -/
inductive FsOp
  | mkdir (path : String)
  | save (path : String)
deriving DecidableEq, Repr

/-- The observable outcome of a batch run: the counter printed in the final
summary line, the saved filenames, the skip log lines, the failure log
lines, and the filesystem operations in order. -/
@[ext]
structure Summary where
  processed : Nat
  saved : List String
  skipped : List String
  failed : List String
  ops : List FsOp
deriving DecidableEq, Repr

/-- The state at the top of the loop: nothing processed yet. -/
def emptySummary : Summary := ⟨0, [], [], [], []⟩

/-- Componentwise combination of two run segments. -/
def mergeSummary (a b : Summary) : Summary :=
  ⟨a.processed + b.processed, a.saved ++ b.saved, a.skipped ++ b.skipped,
    a.failed ++ b.failed, a.ops ++ b.ops⟩

/-- The `for filename in os.listdir(directory_path)` loop (lines 96–115):
filter by extension; skip on missing date; record a failure when
`add_watermark` returns `None`; otherwise save under the original filename
in the output directory and increment the counter. -/
def processLoop (od : String) : List (String × ImageFile) → Summary → Summary
  | [], acc => acc
  | (filename, img) :: rest, acc =>
    if isSupported filename then
      match get_exif_datetime img with
      | none =>
        processLoop od rest { acc with skipped := acc.skipped ++ [filename] }
      | some shoot_date =>
        match add_watermark img shoot_date with
        | some _ =>
          processLoop od rest
            { acc with
              processed := acc.processed + 1,
              saved := acc.saved ++ [filename],
              ops := acc.ops ++ [FsOp.save (joinPath od filename)] }
        | none =>
          processLoop od rest { acc with failed := acc.failed ++ [filename] }
    else processLoop od rest acc

/-- Model of `process_images_in_directory` (lines 85–117): derive the output
directory, create it (line 89, before any file is written), then run the
loop over the directory entries. -/
def process_images_in_directory (directory_path : String)
    (files : List (String × ImageFile)) : Summary :=
  let od := output_dir directory_path
  let s := processLoop od files emptySummary
  { s with ops := FsOp.mkdir od :: s.ops }

/-! ## The top-level guard (`main`, lines 133–157)

`main` checks only `os.path.exists(args.directory)`; a path bound to a
regular file passes the check, and `process_images_in_directory` then
raises an uncaught `NotADirectoryError` — already at `os.makedirs`
(line 89), before `os.listdir` (line 96) is reached. -/

/-- A filesystem entry: a regular file, or a directory with its entries. -/
inductive Entry
  | file (img : ImageFile)
  | dir (entries : List (String × ImageFile))

/-- Model of `os.path.exists`: true for files and directories alike. -/
def path_exists (fs : String → Option Entry) (p : String) : Bool :=
  (fs p).isSome

/-- Model of `os.listdir`: the entries of a directory; raises `NotADirectoryError`
on a regular file and `FileNotFoundError` on a missing path. -/
def listdir (fs : String → Option Entry) (p : String) :
    Except String (List (String × ImageFile)) :=
  match fs p with
  | some (.dir entries) => .ok entries
  | some (.file _) => .error "NotADirectoryError: os.listdir"
  | none => .error "FileNotFoundError: os.listdir"

/-- The body of `process_images_in_directory` with its uncaught exceptions:
`os.makedirs(output_dir, exist_ok=True)` (line 89) raises
`NotADirectoryError` when `directory` is a regular file (the new
directory's parent is not a directory); only then is `os.listdir`
(line 96) reached. -/
def run_process (fs : String → Option Entry) (directory : String) :
    Except String Summary :=
  match fs directory with
  | some (.file _) => .error "NotADirectoryError: os.makedirs"
  | _ =>
    match listdir fs directory with
    | .ok entries => .ok (process_images_in_directory directory entries)
    | .error e => .error e

/-- Model of `main` (lines 133–157) after argument parsing: `os.path.exists` guard
with a clean return (`.ok none`) when the path does not exist; otherwise
the batch run, whose exceptions are not caught. -/
def main_run (fs : String → Option Entry) (directory : String) :
    Except String (Option Summary) :=
  if path_exists fs directory then (run_process fs directory).map some
  else .ok none

/-- A concrete filesystem holding exactly one regular file,
`"photos.txt"`. -/
def fsFileOnly : String → Option Entry :=
  fun q => if q = "photos.txt" then some (Entry.file ⟨true, none, true⟩) else none

/-! ## Theorems

Helper lemmas first, then one theorem per specification claim (with a
closed witness wherever the claim theorem carries hypotheses). -/

theorem computeAnchor_topLeft (imgW imgH textW textH : Int) :
    computeAnchor "左上角" imgW imgH textW textH = (padding, padding) := rfl

theorem computeAnchor_center (imgW imgH textW textH : Int) :
    computeAnchor "居中" imgW imgH textW textH =
      (Int.fdiv (imgW - textW) 2, Int.fdiv (imgH - textH) 2) := rfl

theorem computeAnchor_bottomRight (imgW imgH textW textH : Int) :
    computeAnchor "右下角" imgW imgH textW textH =
      (imgW - textW - padding, imgH - textH - padding) := rfl

theorem computeAnchor_default (p : String) (imgW imgH textW textH : Int)
    (h1 : p ≠ "左上角") (h2 : p ≠ "居中") (h3 : p ≠ "右下角") :
    computeAnchor p imgW imgH textW textH =
      (imgW - textW - padding, imgH - textH - padding) := by
  simp only [computeAnchor, if_neg h1, if_neg h2, if_neg h3]

/-- C2: for images at least `(2*20 + textWidth) × (2*20 + textHeight)`, all
three recognized positions place the full text box within the image bounds
minus the fixed margin of 20. -/
theorem anchor_in_bounds (imgW imgH textW textH : Int)
    (hW : 2 * 20 + textW ≤ imgW) (hH : 2 * 20 + textH ≤ imgH) :
    (∀ p ∈ ["左上角", "居中", "右下角"],
      inBounds (computeAnchor p imgW imgH textW textH).1
        (computeAnchor p imgW imgH textW textH).2 textW textH imgW imgH) := by
  intro p hp
  have hfd : ∀ a : Int, Int.fdiv a 2 = a / 2 := by
    intro a
    rw [Int.fdiv_eq_ediv _ (by norm_num)]
  simp only [List.mem_cons, List.not_mem_nil, or_false] at hp
  rcases hp with rfl | rfl | rfl <;>
    simp only [computeAnchor_topLeft, computeAnchor_center, computeAnchor_bottomRight,
      inBounds, padding, hfd] <;>
    refine ⟨?_, ?_, ?_, ?_⟩ <;> omega

/-- Witness for C2 at a concrete size: a 100×80 image with a 40×20 text box. -/
theorem anchor_in_bounds_witness :
    inBounds (computeAnchor "居中" 100 80 40 20).1
      (computeAnchor "居中" 100 80 40 20).2 40 20 100 80 :=
  anchor_in_bounds 100 80 40 20 (by norm_num) (by norm_num)
    "居中" (by simp)

/-- C3: the anchor formulas of `add_watermark`: top-left `(20, 20)`, center
`((imgW − textW) // 2, (imgH − textH) // 2)` (floor division), bottom-right
`(imgW − textW − 20, imgH − textH − 20)`, and any unrecognized position
string falls back to the bottom-right formula. -/
theorem anchor_formulas (imgW imgH textW textH : Int) :
    computeAnchor "左上角" imgW imgH textW textH = (20, 20) ∧
    computeAnchor "居中" imgW imgH textW textH =
      (Int.fdiv (imgW - textW) 2, Int.fdiv (imgH - textH) 2) ∧
    computeAnchor "右下角" imgW imgH textW textH =
      (imgW - textW - 20, imgH - textH - 20) ∧
    (∀ p : String, p ≠ "左上角" → p ≠ "居中" → p ≠ "右下角" →
      computeAnchor p imgW imgH textW textH =
        (imgW - textW - 20, imgH - textH - 20)) := by
  refine ⟨computeAnchor_topLeft .., computeAnchor_center .., computeAnchor_bottomRight ..,
    fun p h1 h2 h3 => computeAnchor_default p imgW imgH textW textH h1 h2 h3⟩

/-- Witness for C3: the default branch evaluated at the unrecognized
position `"elsewhere"` on a 640×480 image with a 100×30 text box. -/
theorem anchor_formulas_witness :
    computeAnchor "elsewhere" 640 480 100 30 = (640 - 100 - 20, 480 - 30 - 20) :=
  (anchor_formulas 640 480 100 30).2.2.2 "elsewhere"
    (by decide) (by decide) (by decide)

/-- C6: on exactly three comma-separated integer components each in
`[0, 255]`, `parse_color` returns exactly that triple; in particular
`parse_color "10,20,30" = (10, 20, 30)`. -/
theorem parse_color_valid (s : String) (a b c : List Char) (r g bl : Int)
    (hsplit : splitComma s.toList = [a, b, c])
    (ha : pyInt (stripChars a) = some r) (hb : pyInt (stripChars b) = some g)
    (hc : pyInt (stripChars c) = some bl)
    (hr : 0 ≤ r ∧ r ≤ 255) (hg : 0 ≤ g ∧ g ≤ 255) (hbl : 0 ≤ bl ∧ bl ≤ 255) :
    parse_color s = (r, g, bl) ∧ parse_color "10,20,30" = (10, 20, 30) := by
  constructor
  · simp only [parse_color, hsplit, List.length_cons, List.length_nil, ha, hb, hc]
    rw [if_neg (by norm_num), if_pos ⟨hr.1, hr.2, hg.1, hg.2, hbl.1, hbl.2⟩]
  · decide

/-- Witness for C6 on the concrete input `"10,20,30"`. -/
theorem parse_color_valid_witness : parse_color "10,20,30" = (10, 20, 30) :=
  (parse_color_valid "10,20,30" "10".toList "20".toList "30".toList 10 20 30
    (by decide) (by decide) (by decide) (by decide)
    (by decide) (by decide) (by decide)).1

/-- C7: `parse_color` falls back to white when the component count is not 3,
when a component is not an integer, or when a component is out of range;
in particular on `"10,20,300"` and `"1,2"`. -/
theorem parse_color_fallback (s : String) :
    ((splitComma s.toList).length ≠ 3 → parse_color s = (255, 255, 255)) ∧
    (∀ a b c : List Char, splitComma s.toList = [a, b, c] →
      (pyInt (stripChars a) = none ∨ pyInt (stripChars b) = none ∨
        pyInt (stripChars c) = none) →
      parse_color s = (255, 255, 255)) ∧
    (∀ (a b c : List Char) (r g bl : Int), splitComma s.toList = [a, b, c] →
      pyInt (stripChars a) = some r → pyInt (stripChars b) = some g →
      pyInt (stripChars c) = some bl →
      ¬(0 ≤ r ∧ r ≤ 255 ∧ 0 ≤ g ∧ g ≤ 255 ∧ 0 ≤ bl ∧ bl ≤ 255) →
      parse_color s = (255, 255, 255)) ∧
    parse_color "10,20,300" = (255, 255, 255) ∧
    parse_color "1,2" = (255, 255, 255) := by
  refine ⟨fun hlen => ?_, fun a b c hsplit hnone => ?_,
    fun a b c r g bl hsplit ha hb hc hrange => ?_, by decide, by decide⟩
  · simp only [parse_color, if_pos hlen]
  · simp only [parse_color, hsplit, List.length_cons, List.length_nil]
    rw [if_neg (by norm_num)]
    cases hA : pyInt (stripChars a) <;> cases hB : pyInt (stripChars b) <;>
        cases hC : pyInt (stripChars c) <;> simp only [hA, hB, hC] <;>
      first
        | rfl
        | (rcases hnone with h | h | h <;> simp only [hA, hB, hC] at h <;>
            exact Option.noConfusion h)
  · simp only [parse_color, hsplit, List.length_cons, List.length_nil, ha, hb, hc]
    rw [if_neg (by norm_num), if_neg hrange]

/-- Witness for C7 on the concrete inputs `"10,20,300"` (out of range) and
`"1,2"` (wrong arity). -/
theorem parse_color_fallback_witness :
    parse_color "10,20,300" = (255, 255, 255) ∧
    parse_color "1,2" = (255, 255, 255) :=
  ⟨(parse_color_fallback "10,20,300").2.2.2.1,
    (parse_color_fallback "1,2").2.2.2.2⟩

theorem digitVal_digitChar (n : Nat) (h : n < 10) :
    digitVal (digitChar n) = some n := by
  interval_cases n <;> decide

theorem parseYear4_pad4 (y : Nat) (hy : y ≤ 9999) (rest : List Char) :
    parseYear4 (pad4 y ++ rest) = some (y, rest) := by
  show parseYear4 (digitChar (y / 1000) :: digitChar (y / 100 % 10) ::
    digitChar (y / 10 % 10) :: digitChar (y % 10) :: rest) = some (y, rest)
  simp only [parseYear4, digitVal_digitChar _ (show y / 1000 < 10 by omega),
    digitVal_digitChar _ (show y / 100 % 10 < 10 by omega),
    digitVal_digitChar _ (show y / 10 % 10 < 10 by omega),
    digitVal_digitChar _ (show y % 10 < 10 by omega),
    Option.some.injEq, Prod.mk.injEq, and_true]
  omega

theorem parseMonth2_pad2 (m : Nat) (h1 : 1 ≤ m) (h2 : m ≤ 12) (rest : List Char) :
    parseMonth2 (pad2 m ++ rest) = some (m, rest) := by
  show parseMonth2 (digitChar (m / 10) :: digitChar (m % 10) :: rest) = some (m, rest)
  simp only [parseMonth2, digitVal_digitChar _ (show m / 10 < 10 by omega),
    digitVal_digitChar _ (show m % 10 < 10 by omega)]
  split_ifs with hA hB hC <;>
    first
      | (simp only [Option.some.injEq, Prod.mk.injEq, and_true]; omega)
      | (exfalso; omega)

theorem parseDay2_pad2 (d : Nat) (h1 : 1 ≤ d) (h2 : d ≤ 31) (rest : List Char) :
    parseDay2 (pad2 d ++ rest) = some (d, rest) := by
  show parseDay2 (digitChar (d / 10) :: digitChar (d % 10) :: rest) = some (d, rest)
  simp only [parseDay2, digitVal_digitChar _ (show d / 10 < 10 by omega),
    digitVal_digitChar _ (show d % 10 < 10 by omega)]
  split_ifs with hA hB hC hD <;>
    first
      | (simp only [Option.some.injEq, Prod.mk.injEq, and_true]; omega)
      | (exfalso; omega)

theorem parseHour2_pad2 (h : Nat) (hh : h ≤ 23) (rest : List Char) :
    parseHour2 (pad2 h ++ rest) = some (h, rest) := by
  show parseHour2 (digitChar (h / 10) :: digitChar (h % 10) :: rest) = some (h, rest)
  simp only [parseHour2, digitVal_digitChar _ (show h / 10 < 10 by omega),
    digitVal_digitChar _ (show h % 10 < 10 by omega)]
  split_ifs with hA hB <;>
    first
      | (simp only [Option.some.injEq, Prod.mk.injEq, and_true]; omega)
      | (exfalso; omega)

theorem parseMin2_pad2 (n : Nat) (hn : n ≤ 59) (rest : List Char) :
    parseMin2 (pad2 n ++ rest) = some (n, rest) := by
  show parseMin2 (digitChar (n / 10) :: digitChar (n % 10) :: rest) = some (n, rest)
  simp only [parseMin2, digitVal_digitChar _ (show n / 10 < 10 by omega),
    digitVal_digitChar _ (show n % 10 < 10 by omega)]
  split_ifs with hA <;>
    first
      | (simp only [Option.some.injEq, Prod.mk.injEq, and_true]; omega)
      | (exfalso; omega)

theorem parseSec2_pad2 (n : Nat) (hn : n ≤ 59) (rest : List Char) :
    parseSec2 (pad2 n ++ rest) = some (n, rest) := by
  show parseSec2 (digitChar (n / 10) :: digitChar (n % 10) :: rest) = some (n, rest)
  simp only [parseSec2, digitVal_digitChar _ (show n / 10 < 10 by omega),
    digitVal_digitChar _ (show n % 10 < 10 by omega)]
  split_ifs with hA hB <;>
    first
      | (simp only [Option.some.injEq, Prod.mk.injEq, and_true]; omega)
      | (exfalso; omega)

theorem expectChar_cons (c : Char) (rest : List Char) :
    expectChar c (c :: rest) = some rest := by
  simp [expectChar]

/-- The `strptime` regex round-trips on the canonical fixed-format
rendering of an in-range timestamp. -/
theorem strptimeRun_timestamp (y mo d h mi s : Nat) (hy : y ≤ 9999)
    (hmo1 : 1 ≤ mo) (hmo2 : mo ≤ 12) (hd1 : 1 ≤ d) (hd2 : d ≤ 31)
    (hh : h ≤ 23) (hmi : mi ≤ 59) (hs : s ≤ 59) :
    strptimeRun (timestampChars y mo d h mi s) = some (y, mo, d, h, mi, s) := by
  have e6 : parseSec2 (pad2 s ++ []) = some (s, []) := parseSec2_pad2 s hs []
  rw [List.append_nil] at e6
  simp only [timestampChars, strptimeRun, parseYear4_pad4 y hy, expectChar_cons,
    parseMonth2_pad2 mo hmo1 hmo2, parseDay2_pad2 d hd1 hd2,
    parseHour2_pad2 h hh, parseMin2_pad2 mi hmi, e6]

theorem daysInMonth_le (y m : Nat) : daysInMonth y m ≤ 31 := by
  unfold daysInMonth
  split_ifs <;> omega

theorem mergeSummary_emptySummary (a : Summary) : mergeSummary a emptySummary = a := by
  ext <;> simp [mergeSummary, emptySummary]

theorem emptySummary_mergeSummary (a : Summary) : mergeSummary emptySummary a = a := by
  ext <;> simp [mergeSummary, emptySummary]

theorem mergeSummary_assoc (a b c : Summary) :
    mergeSummary (mergeSummary a b) c = mergeSummary a (mergeSummary b c) := by
  ext <;> simp [mergeSummary, Nat.add_assoc]

/-- The loop accumulator splits off: the result from any starting state is
the starting state merged with the result from the empty state.  This is
the formal content of per-file isolation: what the loop does to the
remaining files never depends on what was accumulated before. -/
theorem processLoop_acc (od : String) (files : List (String × ImageFile)) (acc : Summary) :
    processLoop od files acc = mergeSummary acc (processLoop od files emptySummary) := by
  induction files generalizing acc with
  | nil => simp [processLoop, mergeSummary_emptySummary]
  | cons f rest ih =>
    obtain ⟨filename, img⟩ := f
    by_cases hs : isSupported filename
    · simp only [processLoop, if_pos hs]
      cases hge : get_exif_datetime img <;> dsimp only
      · rw [ih { acc with skipped := acc.skipped ++ [filename] },
          ih { emptySummary with skipped := emptySummary.skipped ++ [filename] },
          ← mergeSummary_assoc]
        congr 1
        ext <;> simp [mergeSummary, emptySummary]
      · rename_i shoot_date
        cases haw : add_watermark img shoot_date <;> dsimp only
        · rw [ih { acc with failed := acc.failed ++ [filename] },
            ih { emptySummary with failed := emptySummary.failed ++ [filename] },
            ← mergeSummary_assoc]
          congr 1
          ext <;> simp [mergeSummary, emptySummary]
        · rw [ih { acc with
              processed := acc.processed + 1,
              saved := acc.saved ++ [filename],
              ops := acc.ops ++ [FsOp.save (joinPath od filename)] },
            ih { emptySummary with
              processed := emptySummary.processed + 1,
              saved := emptySummary.saved ++ [filename],
              ops := emptySummary.ops ++ [FsOp.save (joinPath od filename)] },
            ← mergeSummary_assoc]
          congr 1
          ext <;> simp [mergeSummary, emptySummary]
    · simp only [processLoop, if_neg hs]
      exact ih acc

/-- C4: for every metadata timestamp in the valid fixed format
`"YYYY:MM:DD HH:MM:SS"` (an in-range Gregorian calendar date),
`get_exif_datetime` returns the localized display string
`"YYYY年MM月DD日"` built from the parsed year, month and day, discarding
the time of day. -/
theorem exif_valid_timestamp (y mo d h mi s : Nat) (render : Bool)
    (hy1 : 1 ≤ y) (hy2 : y ≤ 9999) (hmo1 : 1 ≤ mo) (hmo2 : mo ≤ 12)
    (hd1 : 1 ≤ d) (hd2 : d ≤ daysInMonth y mo)
    (hh : h ≤ 23) (hmi : mi ≤ 59) (hs : s ≤ 59) :
    get_exif_datetime ⟨true, some (timestampStr y mo d h mi s), render⟩ =
      some (formatCN y mo d) := by
  have hd31 : d ≤ 31 := le_trans hd2 (daysInMonth_le y mo)
  have hrun : strptimeRun (timestampStr y mo d h mi s).toList =
      some (y, mo, d, h, mi, s) :=
    strptimeRun_timestamp y mo d h mi s hy2 hmo1 hmo2 hd1 hd31 hh hmi hs
  have hok : datetimeOk y mo d h mi s = true := by
    simp only [datetimeOk, Bool.and_eq_true, decide_eq_true_eq]
    exact ⟨⟨⟨⟨⟨⟨⟨⟨hy1, hy2⟩, hmo1⟩, hmo2⟩, hd1⟩, hd2⟩, hh⟩, hmi⟩, hs⟩
  simp only [get_exif_datetime, parseExifDate, hrun, hok, if_true]

/-- Witness for C4: `"2024:01:15 10:30:45"` maps to `"2024年01月15日"`. -/
theorem exif_valid_timestamp_witness :
    timestampStr 2024 1 15 10 30 45 = "2024:01:15 10:30:45" ∧
    formatCN 2024 1 15 = "2024年01月15日" ∧
    get_exif_datetime ⟨true, some (timestampStr 2024 1 15 10 30 45), true⟩ =
      some (formatCN 2024 1 15) :=
  ⟨by decide, by decide,
    exif_valid_timestamp 2024 1 15 10 30 45 true (by decide) (by decide) (by decide)
      (by decide) (by decide) (by decide) (by decide) (by decide) (by decide)⟩

/-- C5: when the `DateTimeOriginal` field is absent, or present but its
value fails to parse, `get_exif_datetime` returns `None` rather than
raising, and the batch loop then records the file as skipped — it appends
one skip log line, saves nothing and leaves the counter unchanged, while
the remaining files are processed exactly as they would be without it. -/
theorem exif_absent_skips (od filename : String) (img : ImageFile)
    (rest : List (String × ImageFile))
    (habs : img.dateTimeOriginal = none ∨
      (∃ ds, img.dateTimeOriginal = some ds ∧ parseExifDate ds = none)) :
    get_exif_datetime img = none ∧
    (isSupported filename = true →
      processLoop od ((filename, img) :: rest) emptySummary =
        mergeSummary ⟨0, [], [filename], [], []⟩
          (processLoop od rest emptySummary)) := by
  have hnone : get_exif_datetime img = none := by
    unfold get_exif_datetime
    rcases habs with h | ⟨ds, hds, hparse⟩
    · rw [h]
      cases img.exifLoadOk <;> simp
    · rw [hds]
      cases img.exifLoadOk <;> simp [hparse]
  refine ⟨hnone, fun hs => ?_⟩
  simp only [processLoop, if_pos hs, hnone]
  exact processLoop_acc od rest _

/-- Witness for C5: a file whose `DateTimeOriginal` reads `"not a date"`
is skipped and the counter stays zero. -/
theorem exif_absent_skips_witness :
    get_exif_datetime ⟨true, some "not a date", true⟩ = none ∧
    processLoop "photos/photos_watermark"
      [("nodate.jpg", ⟨true, some "not a date", true⟩)] emptySummary =
      mergeSummary ⟨0, [], ["nodate.jpg"], [], []⟩
        (processLoop "photos/photos_watermark" [] emptySummary) := by
  have h := exif_absent_skips "photos/photos_watermark" "nodate.jpg"
    ⟨true, some "not a date", true⟩ []
    (Or.inr ⟨"not a date", rfl, by decide⟩)
  exact ⟨h.1, h.2 (by decide)⟩

theorem processed_eq_saved (od : String) (files : List (String × ImageFile)) :
    (processLoop od files emptySummary).processed =
      (processLoop od files emptySummary).saved.length := by
  induction files with
  | nil => rfl
  | cons f rest ih =>
    obtain ⟨fn, img⟩ := f
    by_cases hs : isSupported fn
    · simp only [processLoop, if_pos hs]
      simp only [emptySummary] at ih
      cases hge : get_exif_datetime img <;> dsimp only
      · rw [processLoop_acc]
        simp [mergeSummary, emptySummary]
        omega
      · rename_i dte
        cases haw : add_watermark img dte <;> dsimp only
        · rw [processLoop_acc]
          simp [mergeSummary, emptySummary]
          omega
        · rw [processLoop_acc]
          simp [mergeSummary, emptySummary]
          omega
    · simp only [processLoop, if_neg hs]
      exact ih

/-- C1: the batch loop is sequential and isolates per-file failures: a file
with no capture date only appends a skip record, a failed stamp only
appends a failure record, and only a successful stamp saves the image
under the original filename in the output directory and increments the
counter — in each case the rest of the batch is processed unchanged.  The
final count equals the number of saved files, and the concrete
3-valid-EXIF-plus-1-missing directory yields the count 3, the three output
files, and a skip record for the fourth. -/
theorem batch_isolation :
    (∀ dirPath files, (process_images_in_directory dirPath files).processed =
      (process_images_in_directory dirPath files).saved.length) ∧
    (∀ od fn img rest, isSupported fn = true →
      (get_exif_datetime img = none →
        processLoop od ((fn, img) :: rest) emptySummary =
          mergeSummary ⟨0, [], [fn], [], []⟩ (processLoop od rest emptySummary)) ∧
      (∀ dte, get_exif_datetime img = some dte → add_watermark img dte = none →
        processLoop od ((fn, img) :: rest) emptySummary =
          mergeSummary ⟨0, [], [], [fn], []⟩ (processLoop od rest emptySummary)) ∧
      (∀ dte stamped, get_exif_datetime img = some dte →
        add_watermark img dte = some stamped →
        processLoop od ((fn, img) :: rest) emptySummary =
          mergeSummary ⟨1, [fn], [], [], [FsOp.save (joinPath od fn)]⟩
            (processLoop od rest emptySummary))) ∧
    process_images_in_directory "photos"
      [("a.jpg", ⟨true, some "2024:01:15 10:30:45", true⟩),
       ("b.jpg", ⟨true, some "2023:06:01 00:00:00", true⟩),
       ("c.jpg", ⟨true, some "2022:12:31 23:59:59", true⟩),
       ("d.jpg", ⟨true, none, true⟩)] =
      ⟨3, ["a.jpg", "b.jpg", "c.jpg"], ["d.jpg"], [],
        [FsOp.mkdir "photos/photos_watermark",
         FsOp.save "photos/photos_watermark/a.jpg",
         FsOp.save "photos/photos_watermark/b.jpg",
         FsOp.save "photos/photos_watermark/c.jpg"]⟩ := by
  refine ⟨fun dirPath files => ?_, fun od fn img rest hs => ?_, by decide⟩
  · simp only [process_images_in_directory]
    exact processed_eq_saved _ files
  · refine ⟨fun hge => ?_, fun dte hge haw => ?_, fun dte stamped hge haw => ?_⟩
    · simp only [processLoop, if_pos hs, hge]
      exact processLoop_acc od rest _
    · simp only [processLoop, if_pos hs, hge, haw]
      exact processLoop_acc od rest _
    · simp only [processLoop, if_pos hs, hge, haw]
      exact processLoop_acc od rest _

/-- Witness for C1: a single no-date file is recorded as a skip and the
(empty) remainder of the batch is unaffected. -/
theorem batch_isolation_witness :
    processLoop "photos/photos_watermark"
      [("d.jpg", ⟨true, none, true⟩)] emptySummary =
      mergeSummary ⟨0, [], ["d.jpg"], [], []⟩
        (processLoop "photos/photos_watermark" [] emptySummary) :=
  (batch_isolation.2.1 "photos/photos_watermark" "d.jpg" ⟨true, none, true⟩ []
    (by decide)).1 (by decide)

theorem basename_no_slash (d : String) : ∀ c ∈ (basename d).toList, c ≠ '/' := by
  intro c hc
  have h1 : c ∈ d.toList.reverse.takeWhile (fun x => decide (x ≠ '/')) := by
    have : (basename d).toList =
        (d.toList.reverse.takeWhile (fun x => decide (x ≠ '/'))).reverse := rfl
    rw [this, List.mem_reverse] at hc
    exact hc
  have h2 := List.mem_takeWhile_imp h1
  simpa using h2

theorem processLoop_ops_save (od : String) (files : List (String × ImageFile)) :
    ∀ op ∈ (processLoop od files emptySummary).ops, ∃ p, op = FsOp.save p := by
  induction files with
  | nil => intro op hop; cases hop
  | cons f rest ih =>
    obtain ⟨fn, img⟩ := f
    by_cases hs : isSupported fn
    · simp only [processLoop, if_pos hs]
      cases hge : get_exif_datetime img <;> dsimp only
      · rw [processLoop_acc]
        intro op hop
        simp [mergeSummary, emptySummary] at hop
        exact ih op hop
      · rename_i dte
        cases haw : add_watermark img dte <;> dsimp only
        · rw [processLoop_acc]
          intro op hop
          simp [mergeSummary, emptySummary] at hop
          exact ih op hop
        · rw [processLoop_acc]
          intro op hop
          simp [mergeSummary, emptySummary] at hop
          rcases hop with rfl | hop
          · exact ⟨joinPath od fn, rfl⟩
          · exact ih op hop
    · simp only [processLoop, if_neg hs]
      exact ih

/-- C8: the output directory is `os.path.join(dir, basename(dir) +
"_watermark")` — i.e. `<dir>/<basename(dir)>_watermark` inside the input
directory for any ordinary directory path — its creation is the first
filesystem operation of a run, before any save, and
`os.makedirs(..., exist_ok=True)` never raises and is idempotent. -/
theorem output_dir_theorem :
    (∀ d, output_dir d = joinPath d (basename d ++ "_watermark")) ∧
    (∀ d, d ≠ "" → d.toList.getLast? ≠ some '/' →
      output_dir d = d ++ "/" ++ (basename d ++ "_watermark")) ∧
    (∀ dirPath files, ∃ tail,
      (process_images_in_directory dirPath files).ops =
        FsOp.mkdir (output_dir dirPath) :: tail ∧
      ∀ op ∈ tail, ∃ p, op = FsOp.save p) ∧
    (∀ dirs path, makedirs dirs path true =
      Except.ok (if path ∈ dirs then dirs else dirs ++ [path])) ∧
    (∀ dirs dirs2 path, makedirs dirs path true = Except.ok dirs2 →
      makedirs dirs2 path true = Except.ok dirs2) := by
  refine ⟨fun d => rfl, fun d hne hsl => ?_, fun dirPath files => ?_,
    fun dirs path => ?_, fun dirs dirs2 path h => ?_⟩
  · unfold output_dir joinPath
    have hdata : (basename d ++ "_watermark").toList =
        (basename d).toList ++ "_watermark".toList := rfl
    have hhead : ¬((basename d ++ "_watermark").toList.head? = some '/') := by
      rw [hdata]
      rcases hb : (basename d).toList with _ | ⟨c, t⟩
      · decide
      · have hc : c ≠ '/' := basename_no_slash d c (by rw [hb]; exact List.mem_cons_self c t)
        simp [hc]
    rw [if_neg hhead, if_neg (not_or.mpr ⟨hne, hsl⟩)]
  · refine ⟨(processLoop (output_dir dirPath) files emptySummary).ops, rfl, ?_⟩
    exact processLoop_ops_save (output_dir dirPath) files
  · unfold makedirs
    split_ifs with h h2
    · rfl
    · exact absurd rfl h2
    · rfl
  · unfold makedirs at h ⊢
    by_cases h1 : path ∈ dirs
    · rw [if_pos h1, if_pos rfl] at h
      obtain rfl : dirs = dirs2 := by injection h
      rw [if_pos h1, if_pos rfl]
    · rw [if_neg h1] at h
      obtain rfl : dirs ++ [path] = dirs2 := by injection h
      rw [if_pos (show path ∈ dirs ++ [path] by simp), if_pos rfl]

/-- Witness for C8 at the concrete directory `"photos"`: the derived
output directory formula, and re-running `makedirs` on the already-created
directory succeeds unchanged. -/
theorem output_dir_theorem_witness :
    output_dir "photos" = "photos" ++ "/" ++ (basename "photos" ++ "_watermark") ∧
    makedirs ["photos/photos_watermark"] "photos/photos_watermark" true =
      Except.ok ["photos/photos_watermark"] :=
  ⟨output_dir_theorem.2.1 "photos" (by decide) (by decide),
    output_dir_theorem.2.2.2.2 [] ["photos/photos_watermark"]
      "photos/photos_watermark" (by rfl)⟩

theorem processLoop_ignore (od fn : String) (img : ImageFile)
    (pre post : List (String × ImageFile)) (hs : isSupported fn = false) :
    ∀ acc, processLoop od (pre ++ (fn, img) :: post) acc =
      processLoop od (pre ++ post) acc := by
  induction pre with
  | nil =>
    intro acc
    simp [processLoop, hs]
  | cons g pre ih =>
    intro acc
    obtain ⟨gn, gimg⟩ := g
    simp only [List.cons_append, processLoop]
    by_cases hg : isSupported gn
    · simp only [if_pos hg]
      cases hge : get_exif_datetime gimg <;> dsimp only
      · exact ih _
      · rename_i dte
        cases haw : add_watermark gimg dte <;> dsimp only
        · exact ih _
        · exact ih _
    · simp only [if_neg hg]
      exact ih acc

/-- C9: the loop attempts exactly the entries whose name, lowercased,
ends with one of `.jpg .jpeg .png .tiff .bmp`: that suffix test is the
filter predicate, a non-matching entry anywhere in the listing leaves the
whole run unchanged, and a matching entry is recorded in one of the
outcome lists. -/
theorem extension_filter (dirPath fn : String) (img : ImageFile)
    (pre post : List (String × ImageFile)) :
    (isSupported fn = true ↔ ∃ ext ∈ supported_formats,
      ext.toList.isSuffixOf (fn.toList.map Char.toLower) = true) ∧
    (isSupported fn = false →
      process_images_in_directory dirPath (pre ++ (fn, img) :: post) =
        process_images_in_directory dirPath (pre ++ post)) ∧
    (isSupported fn = true →
      fn ∈ (processLoop (output_dir dirPath) ((fn, img) :: post) emptySummary).skipped ++
        ((processLoop (output_dir dirPath) ((fn, img) :: post) emptySummary).failed ++
          (processLoop (output_dir dirPath) ((fn, img) :: post) emptySummary).saved)) := by
  refine ⟨?_, fun hs => ?_, fun hs => ?_⟩
  · simp [isSupported, List.any_eq_true]
  · simp only [process_images_in_directory]
    rw [processLoop_ignore (output_dir dirPath) fn img pre post hs emptySummary]
  · simp only [processLoop, if_pos hs]
    cases hge : get_exif_datetime img <;> dsimp only
    · rw [processLoop_acc]
      simp [mergeSummary, emptySummary]
    · rename_i dte
      cases haw : add_watermark img dte <;> dsimp only
      · rw [processLoop_acc]
        simp [mergeSummary, emptySummary]
      · rw [processLoop_acc]
        simp [mergeSummary, emptySummary]

/-- Witness for C9: `"IMG.JPG"` matches case-insensitively; a `.txt` entry
is ignored entirely (the run equals the run without it). -/
theorem extension_filter_witness :
    isSupported "IMG.JPG" = true ∧
    process_images_in_directory "photos" [("readme.txt", ⟨true, none, true⟩)] =
      process_images_in_directory "photos" [] :=
  ⟨(extension_filter "photos" "IMG.JPG" ⟨true, none, true⟩ [] []).1.mpr
      ⟨".jpg", by decide, by decide⟩,
    (extension_filter "photos" "readme.txt" ⟨true, none, true⟩ [] []).2.1 (by decide)⟩

/-- C10 counterexample: with the input path bound to a regular file the
run does abort — but the uncaught `NotADirectoryError` is raised by
`os.makedirs` (line 89); the directory listing (`os.listdir`, line 96) is
never reached, contrary to the claim's attribution. -/
theorem guard_counterexample :
    path_exists fsFileOnly "photos.txt" = true ∧
    main_run fsFileOnly "photos.txt" =
      Except.error "NotADirectoryError: os.makedirs" ∧
    main_run fsFileOnly "photos.txt" ≠
      Except.error "NotADirectoryError: os.listdir" := by
  refine ⟨rfl, rfl, fun h => ?_⟩
  rw [show main_run fsFileOnly "photos.txt" =
    Except.error "NotADirectoryError: os.makedirs" from rfl] at h
  exact absurd (by injection h) (by decide)

/-- C10 (amended): the top-level guard checks only path existence: a path
bound to a regular file passes the check and the run proceeds and aborts
with an uncaught `NotADirectoryError` — raised already by the output
directory creation (`os.makedirs`, line 89), before the directory listing
— and the clean early return happens exactly for nonexistent paths. -/
theorem guard_only_existence (fs : String → Option Entry) (p : String) :
    (∀ img, fs p = some (Entry.file img) →
      path_exists fs p = true ∧
      main_run fs p = Except.error "NotADirectoryError: os.makedirs") ∧
    (main_run fs p = Except.ok none ↔ fs p = none) := by
  constructor
  · intro img hfs
    refine ⟨by simp [path_exists, hfs], ?_⟩
    simp [main_run, run_process, path_exists, hfs, Except.map]
  · cases hfs : fs p with
    | none => simp [main_run, path_exists, hfs]
    | some e =>
      cases e with
      | file img =>
        simp [main_run, run_process, path_exists, hfs, Except.map]
      | dir entries =>
        simp [main_run, run_process, path_exists, hfs, Except.map, listdir]

/-- Witness for C10 (amended) on the concrete one-file filesystem. -/
theorem guard_only_existence_witness :
    path_exists fsFileOnly "photos.txt" = true ∧
    main_run fsFileOnly "photos.txt" =
      Except.error "NotADirectoryError: os.makedirs" :=
  (guard_only_existence fsFileOnly "photos.txt").1 ⟨true, none, true⟩ (by rfl)

end PhotoWatermark
